import Mathlib

/-
Verification of the text-to-structured-record parser, completeness validator
and batch aggregator of the PDF_to_JSON_AI repository (src/app.py).

Text is modelled as List Char, the sequence of Unicode code points of a
Python string. Python dictionaries with string keys are modelled as
association lists with Python dict update semantics (dictSet keeps the
position of an existing key, otherwise appends). Python functions that can
raise are modelled in the Except monad; Except.error () stands for an
uncaught Python exception (here: KeyError).
-/

namespace PdfToJson

abbrev Str := List Char

instance {ε α : Type} [DecidableEq ε] [DecidableEq α] : DecidableEq (Except ε α) := fun x y =>
  match x, y with
  | .ok a, .ok b =>
    if h : a = b then .isTrue (congrArg Except.ok h) else .isFalse (fun hh => h (Except.ok.inj hh))
  | .error a, .error b =>
    if h : a = b then .isTrue (congrArg Except.error h) else .isFalse (fun hh => h (Except.error.inj hh))
  | .ok _, .error _ => .isFalse (fun hh => Except.noConfusion hh)
  | .error _, .ok _ => .isFalse (fun hh => Except.noConfusion hh)

-- Characters removed by str.strip with no arguments (ASCII range; Python
-- also strips some rarer Unicode whitespace, which none of the claims use).
def esEspacio (c : Char) : Bool :=
  c == ' ' || c == '\t' || c == '\n' || c == '\r' || c == '\x0b' || c == '\x0c'

def stripIzq (s : Str) : Str := s.dropWhile esEspacio

def stripDer (s : Str) : Str := (s.reverse.dropWhile esEspacio).reverse

-- Python str.strip().
def strip (s : Str) : Str := stripDer (stripIzq s)

def esPrefijo : Str → Str → Bool
  | [], _ => true
  | _ :: _, [] => false
  | c :: t, d :: u => c == d && esPrefijo t u

-- Python substring test: containsSub pat s models (pat in s).
def containsSub (pat : Str) : Str → Bool
  | [] => esPrefijo pat []
  | c :: t => esPrefijo pat (c :: t) || containsSub pat t

-- Python str.split of a text on the newline character.
def splitOnChar (c : Char) : Str → List Str
  | [] => [[]]
  | d :: t =>
    let r := splitOnChar c t
    if d == c then [] :: r
    else (d :: r.headD []) :: r.tail

-- Python dict lookup (d[k] when present, membership test via isSome).
def dictGet {α : Type} (d : List (Str × α)) (k : Str) : Option α :=
  match d.find? (fun p => p.1 == k) with
  | some p => some p.2
  | none => none

-- Python dict assignment d[k] = v: replace in place if k is present,
-- otherwise append at the end (insertion order preserved).
def dictSet {α : Type} (d : List (Str × α)) (k : Str) (v : α) : List (Str × α) :=
  if d.any (fun p => p.1 == k) then
    d.map (fun p => if p.1 == k then (p.1, v) else p)
  else
    d ++ [(k, v)]

abbrev Campos := List (Str × Str)

abbrev Record := List (Str × Campos)

-- The nine hardcoded section names (app.py lines 270-272 and 317-321).
def secciones_requeridas : List Str :=
  ["DATOS_BASICOS".data, "IDENTIFICACION".data, "EQUIPO_QUIRURGICO".data,
   "DIAGNOSTICOS".data, "INTERVENCION".data, "PROCEDIMIENTOS".data,
   "DESCRIPCION_QUIRURGICA".data, "CONTEO_MATERIAL".data, "DATOS_PROFESIONAL".data]

-- Mutable state of the line loop of convertir_a_json (app.py lines 255-258).
structure ParseState where
  datos_json : Record
  seccion_actual : Option Str
  subseccion_actual : Option Str
  temp_dict : Campos
deriving DecidableEq, Repr

-- Commit of the accumulating section, written twice verbatim in the source
-- (app.py lines 273-274 and lines 302-304): only a non-empty temp_dict under
-- an active section is written into datos_json.
def commitSeccion (st : ParseState) : Record :=
  match st.seccion_actual with
  | some s => if st.temp_dict = [] then st.datos_json else dictSet st.datos_json s st.temp_dict
  | none => st.datos_json

-- The two halves of linea.split(":", 1) with both parts stripped
-- (app.py line 282).
def claveDe (linea : Str) : Str := strip (linea.takeWhile (fun c => !(c == ':')))

def valorDe (linea : Str) : Str := strip ((linea.dropWhile (fun c => !(c == ':'))).drop 1)

-- One iteration of the line loop of convertir_a_json (app.py lines 262-300),
-- with linea already stripped by the caller (line 263 reassigns linea to
-- linea.strip() before any test).
def procesarLinea (st : ParseState) (lineaCruda : Str) : Except Unit ParseState :=
  if strip lineaCruda = [] then .ok st
  else if containsSub ("Página".data) (strip lineaCruda) = true then .ok st
  else if containsSub ("Impreso el".data) (strip lineaCruda) = true then .ok st
  else if strip lineaCruda ∈ secciones_requeridas then
    .ok ⟨commitSeccion st, some (strip lineaCruda), none, []⟩
  else
    match st.seccion_actual with
    | none => .ok st
    | some seccion =>
      if (strip lineaCruda).any (fun c => c == ':') = true then
        if seccion = "DESCRIPCION_QUIRURGICA".data then
          if containsSub ("Hallazgos_operatorios".data) (claveDe (strip lineaCruda)) = true then
            .ok { st with subseccion_actual := some ("Hallazgos_operatorios".data),
                          temp_dict := dictSet st.temp_dict ("Hallazgos_operatorios".data) (valorDe (strip lineaCruda)) }
          else if containsSub ("Detalle_quirúrgico".data) (claveDe (strip lineaCruda)) = true then
            .ok { st with subseccion_actual := some ("Detalle_quirúrgico".data),
                          temp_dict := dictSet st.temp_dict ("Detalle_quirúrgico".data) (valorDe (strip lineaCruda)) }
          else
            match st.subseccion_actual with
            | some sub =>
              match dictGet st.temp_dict sub with
              | some previo =>
                .ok { st with temp_dict := dictSet st.temp_dict sub (previo ++ '\n' :: strip lineaCruda) }
              | none => .error ()
            | none =>
              .ok { st with temp_dict := dictSet st.temp_dict (claveDe (strip lineaCruda)) (valorDe (strip lineaCruda)) }
        else
          .ok { st with temp_dict := dictSet st.temp_dict (claveDe (strip lineaCruda)) (valorDe (strip lineaCruda)) }
      else
        match st.subseccion_actual with
        | some sub =>
          match dictGet st.temp_dict sub with
          | some previo =>
            .ok { st with temp_dict := dictSet st.temp_dict sub (previo ++ '\n' :: strip lineaCruda) }
          | none => .error ()
        | none => .ok st

-- The line loop itself (for linea in lineas).
def procesarLineas (st : ParseState) : List Str → Except Unit ParseState
  | [] => .ok st
  | l :: resto =>
    match procesarLinea st l with
    | .ok st2 => procesarLineas st2 resto
    | .error e => .error e

-- convertir_a_json (app.py lines 248-304), restricted to its pure core: the
-- in-memory content of the input text file goes in, the dictionary written
-- as JSON comes out.
def convertir_a_json (contenido : Str) : Except Unit Record :=
  match procesarLineas ⟨[], none, none, []⟩ (splitOnChar '\n' contenido) with
  | .ok st => .ok (commitSeccion st)
  | .error e => .error e

-- guardar_en_txt (app.py lines 238-243): the content written to the
-- intermediate TXT artifact, one f.write(dato + backslash-n backslash-n)
-- per extracted document.
def guardar_en_txt (datos : List Str) : Str :=
  datos.foldl (fun acc dato => acc ++ dato ++ ('\n' :: '\n' :: [])) []

-- The three logging.warning events of validar_datos, as advisory findings.
inductive Warning where
  | missingSection (s : Str)
  | missingField
  | suspiciouslyShort
deriving DecidableEq, Repr

-- Body of the loop of validar_datos for one required section
-- (app.py lines 323-330). When Hallazgos_operatorios is absent, line 328
-- first logs the missing-field warning and then the unguarded access
-- datos_json[seccion]["Hallazgos_operatorios"] at line 329 raises KeyError:
-- the function aborts, so that path returns Except.error () and the
-- missingField finding never reaches a returned list. When the field is
-- present the line-327 test is false and no missingField finding is logged.
def validarSeccion (datos : Record) (ws : List Warning) (seccion : Str) : Except Unit (List Warning) :=
  match dictGet datos seccion with
  | none => .ok (ws ++ [.missingSection seccion])
  | some campos =>
    if seccion = "DESCRIPCION_QUIRURGICA".data then
      match dictGet campos ("Hallazgos_operatorios".data) with
      | none => .error ()
      | some v => .ok (if v.length < 50 then ws ++ [.suspiciouslyShort] else ws)
    else .ok ws

-- validar_datos (app.py lines 315-330).
def validar_datos (datos : Record) : Except Unit (List Warning) :=
  go datos secciones_requeridas []
where
  go (datos : Record) : List Str → List Warning → Except Unit (List Warning)
    | [], ws => .ok ws
    | s :: resto, ws =>
      match validarSeccion datos ws s with
      | .ok ws2 => go datos resto ws2
      | .error e => .error e

lemma find?_map_of_fst {α : Type} (f : Str × α → Str × α) (hf : ∀ p, (f p).1 = p.1)
    (q : Str) (d : List (Str × α)) :
    (d.map f).find? (fun p => p.1 == q) = (d.find? (fun p => p.1 == q)).map f := by
  induction d with
  | nil => rfl
  | cons p t ih =>
    simp only [List.map_cons, List.find?_cons, hf p]
    cases hpq : (p.1 == q) with
    | true => rfl
    | false => exact ih

lemma dictSet_fst_preserved {α : Type} (k : Str) (v : α) :
    ∀ p : Str × α, ((if p.1 == k then (p.1, v) else p) : Str × α).1 = p.1 := by
  intro p
  split <;> rfl

lemma dictGet_dictSet_self {α : Type} (d : List (Str × α)) (k : Str) (v : α) :
    dictGet (dictSet d k v) k = some v := by
  unfold dictSet
  by_cases h : (d.any (fun p => p.1 == k)) = true
  · rw [if_pos h]
    unfold dictGet
    rw [find?_map_of_fst _ (dictSet_fst_preserved k v)]
    obtain ⟨p0, hp0mem, hp0⟩ := List.any_eq_true.mp h
    have hsome : (d.find? (fun p => p.1 == k)).isSome := by
      rw [List.find?_isSome]; exact ⟨p0, hp0mem, hp0⟩
    obtain ⟨p1, hp1⟩ := Option.isSome_iff_exists.mp hsome
    have hp1k : (p1.1 == k) = true := by simpa using List.find?_some hp1
    rw [hp1]
    simp [Option.map, hp1k]
  · rw [if_neg h]
    unfold dictGet
    rw [List.find?_append]
    have hfalse : d.any (fun p => p.1 == k) = false := by
      cases hb : d.any (fun p => p.1 == k) with
      | true => exact absurd hb h
      | false => rfl
    have hnone : d.find? (fun p => p.1 == k) = none := by
      rw [List.find?_eq_none]
      exact List.any_eq_false.mp hfalse
    rw [hnone, Option.none_or]
    simp [List.find?_cons]

lemma dictGet_dictSet_ne {α : Type} (d : List (Str × α)) (k q : Str) (v : α) (h : q ≠ k) :
    dictGet (dictSet d k v) q = dictGet d q := by
  unfold dictSet
  by_cases ha : (d.any (fun p => p.1 == k)) = true
  · rw [if_pos ha]
    unfold dictGet
    rw [find?_map_of_fst _ (dictSet_fst_preserved k v)]
    cases hf : d.find? (fun p => p.1 == q) with
    | none => rfl
    | some p1 =>
      have hp1q : (p1.1 == q) = true := by simpa using List.find?_some hf
      have hp1k : ¬ ((p1.1 == k) = true) := by
        intro hc
        exact h ((eq_of_beq hp1q).symm.trans (eq_of_beq hc))
      simp [Option.map, hp1k]
  · rw [if_neg ha]
    unfold dictGet
    rw [List.find?_append]
    have hone : List.find? (fun p => p.1 == q) [(k, v)] = none := by
      rw [List.find?_eq_none]
      intro x hx
      rw [List.mem_singleton] at hx
      subst hx
      simp only [beq_iff_eq]
      exact fun hc => h hc.symm
    rw [hone]
    cases d.find? (fun p => p.1 == q) <;> rfl

lemma isSome_dictGet_dictSet {α : Type} (d : List (Str × α)) (k q : Str) (v : α)
    (h : (dictGet d q).isSome = true) : (dictGet (dictSet d k v) q).isSome = true := by
  by_cases hqk : q = k
  · subst hqk
    rw [dictGet_dictSet_self]
    rfl
  · rw [dictGet_dictSet_ne d k q v hqk]
    exact h

lemma any_of_dictGet_eq_some {α : Type} {d : List (Str × α)} {k : Str} {v : α}
    (h : dictGet d k = some v) : d.any (fun p => p.1 == k) = true := by
  unfold dictGet at h
  cases hf : d.find? (fun p => p.1 == k) with
  | none => rw [hf] at h; exact absurd h (by simp)
  | some p1 =>
    exact List.any_eq_true.mpr
      ⟨p1, List.mem_of_find?_eq_some hf, by simpa using List.find?_some hf⟩

lemma keys_dictSet_of_any {α : Type} {d : List (Str × α)} {k : Str} (v : α)
    (h : d.any (fun p => p.1 == k) = true) :
    (dictSet d k v).map Prod.fst = d.map Prod.fst := by
  unfold dictSet
  rw [if_pos h, List.map_map]
  exact List.map_congr_left (fun p _ => dictSet_fst_preserved k v p)

lemma nodup_keys_dictSet {α : Type} {d : List (Str × α)} (k : Str) (v : α)
    (h : (d.map Prod.fst).Nodup) : ((dictSet d k v).map Prod.fst).Nodup := by
  by_cases ha : (d.any (fun p => p.1 == k)) = true
  · rw [keys_dictSet_of_any v ha]
    exact h
  · unfold dictSet
    rw [if_neg ha, List.map_append]
    refine List.nodup_append.mpr ⟨h, List.nodup_singleton k, ?_⟩
    intro a hamem hasing
    simp only [List.map_cons, List.map_nil, List.mem_singleton] at hasing
    obtain ⟨p, hpmem, hpfst⟩ := List.mem_map.mp hamem
    have hfalse : d.any (fun p => p.1 == k) = false := by
      cases hb : d.any (fun p => p.1 == k) with
      | true => exact absurd hb ha
      | false => rfl
    have hnk := List.any_eq_false.mp hfalse p hpmem
    rw [hpfst, hasing] at hnk
    exact hnk (by simp)

lemma mem_dictSet {α : Type} {d : List (Str × α)} {k : Str} {v : α} {p : Str × α}
    (hp : p ∈ dictSet d k v) : (p.1 = k ∧ p.2 = v) ∨ p ∈ d := by
  unfold dictSet at hp
  by_cases ha : (d.any (fun p => p.1 == k)) = true
  · rw [if_pos ha] at hp
    obtain ⟨q, hq, hfq⟩ := List.mem_map.mp hp
    by_cases hqk : (q.1 == k) = true
    · rw [if_pos hqk] at hfq
      left
      rw [← hfq]
      exact ⟨eq_of_beq hqk, rfl⟩
    · rw [if_neg hqk] at hfq
      right
      rw [← hfq]
      exact hq
  · rw [if_neg ha] at hp
    rcases List.mem_append.mp hp with hl | hr
    · right; exact hl
    · left
      rw [List.mem_singleton] at hr
      subst hr
      exact ⟨rfl, rfl⟩

lemma dictSet_ne_nil {α : Type} (d : List (Str × α)) (k : Str) (v : α) :
    dictSet d k v ≠ [] := by
  unfold dictSet
  by_cases ha : (d.any (fun p => p.1 == k)) = true
  · rw [if_pos ha]
    intro hc
    have hd : d = [] := List.map_eq_nil_iff.mp hc
    rw [hd] at ha
    exact absurd ha (by simp)
  · rw [if_neg ha]
    intro hc
    exact absurd (congrArg List.length hc) (by simp)

lemma length_stripDer_le (s : Str) : (stripDer s).length ≤ s.length := by
  unfold stripDer
  rw [List.length_reverse]
  calc (s.reverse.dropWhile esEspacio).length ≤ s.reverse.length :=
        (List.dropWhile_sublist esEspacio).length_le
    _ = s.length := List.length_reverse s

lemma stripIzq_eq_self_of_strip {s : Str} (h : strip s = s) : stripIzq s = s := by
  have hlen : (strip s).length = s.length := by rw [h]
  unfold strip at hlen
  have h2 : (stripDer (stripIzq s)).length ≤ (stripIzq s).length := length_stripDer_le _
  have h3 : (stripIzq s).length ≤ s.length := (List.dropWhile_sublist esEspacio).length_le
  have h4 : (stripIzq s).length = s.length := by omega
  exact (List.dropWhile_suffix esEspacio).eq_of_length h4

lemma stripDer_eq_self_of_strip {s : Str} (h : strip s = s) : stripDer s = s := by
  have h1 := stripIzq_eq_self_of_strip h
  unfold strip at h
  rw [h1] at h
  exact h

lemma dropWhile_rev_of_stripDer {s : Str} (h : stripDer s = s) :
    s.reverse.dropWhile esEspacio = s.reverse := by
  unfold stripDer at h
  have := congrArg List.reverse h
  rwa [List.reverse_reverse] at this

lemma stripDer_append {u w : Str} (hw : stripDer w = w) (hne : w ≠ []) :
    stripDer (u ++ w) = u ++ w := by
  unfold stripDer
  rw [List.reverse_append, List.dropWhile_append, dropWhile_rev_of_stripDer hw]
  have hrev : w.reverse.isEmpty = false := by
    cases hw2 : w.reverse with
    | nil => exact absurd (by simpa using hw2) hne
    | cons a t => rfl
  rw [hrev]
  simp only [Bool.false_eq_true, if_false]
  rw [← List.reverse_append, List.reverse_reverse]

lemma stripIzq_cons_of_not {c : Char} {t : Str} (hc : esEspacio c = false) :
    stripIzq (c :: t) = c :: t := by
  unfold stripIzq
  rw [List.dropWhile_cons, hc]
  simp

lemma head_not_espacio_of_stripIzq {c : Char} {t : Str} (h : stripIzq (c :: t) = c :: t) :
    esEspacio c = false := by
  by_contra hc
  rw [Bool.not_eq_false] at hc
  unfold stripIzq at h
  rw [List.dropWhile_cons, hc] at h
  simp only [if_true] at h
  have := congrArg List.length h
  have hle : (t.dropWhile esEspacio).length ≤ t.length :=
    (List.dropWhile_sublist esEspacio).length_le
  simp only [List.length_cons] at this
  omega

lemma strip_append_of_head {c : Char} {m v : Str} (hc : esEspacio c = false)
    (hv : stripDer v = v) (hvne : v ≠ []) :
    strip (c :: (m ++ v)) = c :: (m ++ v) := by
  unfold strip
  rw [stripIzq_cons_of_not hc]
  exact stripDer_append (u := c :: m) hv hvne

lemma strip_space_cons {v : Str} (hv : strip v = v) : strip (' ' :: v) = v := by
  unfold strip
  have h1 : stripIzq (' ' :: v) = stripIzq v := by
    unfold stripIzq
    rw [List.dropWhile_cons]
    norm_num [esEspacio]
  rw [h1, stripIzq_eq_self_of_strip hv]
  exact stripDer_eq_self_of_strip hv

lemma takeWhile_colon {name rest : Str} (h : ':' ∉ name) :
    (name ++ ':' :: rest).takeWhile (fun c => !(c == ':')) = name ∧
    (name ++ ':' :: rest).dropWhile (fun c => !(c == ':')) = ':' :: rest := by
  induction name with
  | nil =>
    constructor
    · rw [List.nil_append, List.takeWhile_cons]
      simp
    · rw [List.nil_append, List.dropWhile_cons]
      simp
  | cons c t ih =>
    have hc : c ≠ ':' := fun hc => h (by rw [hc]; exact List.mem_cons_self _ _)
    have ht : ':' ∉ t := fun hm => h (List.mem_cons_of_mem _ hm)
    obtain ⟨ih1, ih2⟩ := ih ht
    have hbc : (c == ':') = false := by simp [hc]
    constructor
    · rw [List.cons_append, List.takeWhile_cons]
      simp [hbc, ih1]
    · rw [List.cons_append, List.dropWhile_cons]
      simp [hbc, ih2]

lemma splitOnChar_cons_eq (c d : Char) (t : Str) :
    splitOnChar c (d :: t) =
      if d == c then [] :: splitOnChar c t
      else (d :: (splitOnChar c t).headD []) :: (splitOnChar c t).tail := rfl

lemma splitOnChar_ne_nil (c : Char) (s : Str) : splitOnChar c s ≠ [] := by
  cases s with
  | nil => simp [splitOnChar]
  | cons d t =>
    rw [splitOnChar_cons_eq]
    split <;> simp

lemma splitOnChar_not_mem {c : Char} {s : Str} (h : c ∉ s) : splitOnChar c s = [s] := by
  induction s with
  | nil => rfl
  | cons d t ih =>
    have hd : ¬ ((d == c) = true) := by
      simp only [beq_iff_eq]
      intro hc
      exact h (by rw [hc]; exact List.mem_cons_self _ _)
    have ht : c ∉ t := fun hm => h (List.mem_cons_of_mem _ hm)
    rw [splitOnChar_cons_eq, ih ht]
    simp [hd]

lemma splitOnChar_append_cons {c : Char} {xs ys : Str} (h : c ∉ xs) :
    splitOnChar c (xs ++ c :: ys) = xs :: splitOnChar c ys := by
  induction xs with
  | nil =>
    rw [List.nil_append, splitOnChar_cons_eq]
    simp
  | cons d t ih =>
    have hd : ¬ ((d == c) = true) := by
      simp only [beq_iff_eq]
      intro hc
      exact h (by rw [hc]; exact List.mem_cons_self _ _)
    have ht : c ∉ t := fun hm => h (List.mem_cons_of_mem _ hm)
    rw [List.cons_append, splitOnChar_cons_eq, ih ht]
    simp [hd]

-- Invariant maintained by every iteration of the parse loop: an open
-- multiline field is always a key of temp_dict (so the += at lines 293 and
-- 300 never raises), committed sections are named by schema sections, are
-- non-empty and have duplicate-free field names, the active section is a
-- schema section, and temp_dict has duplicate-free keys.
def Inv (st : ParseState) : Prop :=
  (∀ k, st.subseccion_actual = some k → (dictGet st.temp_dict k).isSome = true) ∧
  (∀ p ∈ st.datos_json, p.1 ∈ secciones_requeridas ∧ p.2 ≠ [] ∧ (p.2.map Prod.fst).Nodup) ∧
  (∀ s, st.seccion_actual = some s → s ∈ secciones_requeridas) ∧
  (st.temp_dict.map Prod.fst).Nodup

lemma commitSeccion_props {st : ParseState} (h : Inv st) :
    ∀ p ∈ commitSeccion st, p.1 ∈ secciones_requeridas ∧ p.2 ≠ [] ∧ (p.2.map Prod.fst).Nodup := by
  obtain ⟨h1, h2, h3, h4⟩ := h
  intro p hp
  unfold commitSeccion at hp
  cases hsec : st.seccion_actual with
  | none =>
    rw [hsec] at hp
    exact h2 p hp
  | some s =>
    rw [hsec] at hp
    dsimp only at hp
    by_cases htemp : st.temp_dict = []
    · rw [if_pos htemp] at hp
      exact h2 p hp
    · rw [if_neg htemp] at hp
      rcases mem_dictSet hp with ⟨hp1, hp2⟩ | hmem
      · exact ⟨hp1 ▸ h3 s hsec, hp2 ▸ htemp, hp2 ▸ h4⟩
      · exact h2 p hmem

lemma procesarLinea_ok {st : ParseState} (l : Str) (h : Inv st) :
    ∃ st2, procesarLinea st l = .ok st2 ∧ Inv st2 := by
  obtain ⟨h1, h2, h3, h4⟩ := h
  unfold procesarLinea
  by_cases hb : strip l = []
  · rw [if_pos hb]
    exact ⟨st, rfl, h1, h2, h3, h4⟩
  rw [if_neg hb]
  by_cases hpag : containsSub ("Página".data) (strip l) = true
  · rw [if_pos hpag]
    exact ⟨st, rfl, h1, h2, h3, h4⟩
  rw [if_neg hpag]
  by_cases himp : containsSub ("Impreso el".data) (strip l) = true
  · rw [if_pos himp]
    exact ⟨st, rfl, h1, h2, h3, h4⟩
  rw [if_neg himp]
  by_cases hsecl : strip l ∈ secciones_requeridas
  · rw [if_pos hsecl]
    refine ⟨_, rfl, ?_, ?_, ?_, ?_⟩
    · intro k hk
      cases hk
    · exact commitSeccion_props ⟨h1, h2, h3, h4⟩
    · intro s hs
      cases hs
      exact hsecl
    · exact List.nodup_nil
  rw [if_neg hsecl]
  cases hsec : st.seccion_actual with
  | none => exact ⟨st, rfl, h1, h2, h3, h4⟩
  | some seccion =>
    dsimp only
    have h3b : ∀ s : Str, some seccion = some s → s ∈ secciones_requeridas :=
      fun s hs => (Option.some.inj hs) ▸ h3 seccion hsec
    by_cases hcolon : (strip l).any (fun c => c == ':') = true
    · rw [if_pos hcolon]
      by_cases hdesc : seccion = "DESCRIPCION_QUIRURGICA".data
      · rw [if_pos hdesc]
        by_cases hhal : containsSub ("Hallazgos_operatorios".data) (claveDe (strip l)) = true
        · rw [if_pos hhal]
          refine ⟨_, rfl, ?_, h2, h3b, nodup_keys_dictSet _ _ h4⟩
          intro k hk
          have hk2 : ("Hallazgos_operatorios".data : Str) = k := Option.some.inj hk
          rw [← hk2, dictGet_dictSet_self]
          rfl
        rw [if_neg hhal]
        by_cases hdet : containsSub ("Detalle_quirúrgico".data) (claveDe (strip l)) = true
        · rw [if_pos hdet]
          refine ⟨_, rfl, ?_, h2, h3b, nodup_keys_dictSet _ _ h4⟩
          intro k hk
          have hk2 : ("Detalle_quirúrgico".data : Str) = k := Option.some.inj hk
          rw [← hk2, dictGet_dictSet_self]
          rfl
        rw [if_neg hdet]
        cases hsub : st.subseccion_actual with
        | some sub =>
          dsimp only
          obtain ⟨previo, hprevio⟩ := Option.isSome_iff_exists.mp (h1 sub hsub)
          rw [hprevio]
          refine ⟨_, rfl, ?_, h2, h3b, nodup_keys_dictSet _ _ h4⟩
          intro k hk
          have hk2 : sub = k := Option.some.inj hk
          rw [← hk2, dictGet_dictSet_self]
          rfl
        | none =>
          refine ⟨_, rfl, ?_, h2, h3b, nodup_keys_dictSet _ _ h4⟩
          intro k hk
          cases hk
      · rw [if_neg hdesc]
        refine ⟨_, rfl, ?_, h2, h3b, nodup_keys_dictSet _ _ h4⟩
        intro k hk
        have hk2 : st.subseccion_actual = some k := hk
        exact isSome_dictGet_dictSet _ _ _ _ (h1 k hk2)
    · rw [if_neg hcolon]
      cases hsub : st.subseccion_actual with
      | some sub =>
        dsimp only
        obtain ⟨previo, hprevio⟩ := Option.isSome_iff_exists.mp (h1 sub hsub)
        rw [hprevio]
        refine ⟨_, rfl, ?_, h2, h3b, nodup_keys_dictSet _ _ h4⟩
        intro k hk
        have hk2 : sub = k := Option.some.inj hk
        rw [← hk2, dictGet_dictSet_self]
        rfl
      | none => exact ⟨st, rfl, h1, h2, h3, h4⟩

lemma procesarLineas_ok {st : ParseState} (ls : List Str) (h : Inv st) :
    ∃ st2, procesarLineas st ls = .ok st2 ∧ Inv st2 := by
  induction ls generalizing st with
  | nil => exact ⟨st, rfl, h⟩
  | cons l resto ih =>
    obtain ⟨st1, hst1, hinv1⟩ := procesarLinea_ok l h
    obtain ⟨st2, hst2, hinv2⟩ := ih hinv1
    refine ⟨st2, ?_, hinv2⟩
    unfold procesarLineas
    rw [hst1]
    exact hst2

lemma inv_init : Inv ⟨[], none, none, []⟩ := by
  refine ⟨?_, ?_, ?_, ?_⟩
  · intro k hk
    cases hk
  · intro p hp
    exact absurd hp (List.not_mem_nil p)
  · intro s hs
    cases hs
  · exact List.nodup_nil

lemma convertir_a_json_ok (contenido : Str) :
    ∃ r, convertir_a_json contenido = .ok r ∧
      ∀ p ∈ r, p.1 ∈ secciones_requeridas ∧ p.2 ≠ [] ∧ (p.2.map Prod.fst).Nodup := by
  obtain ⟨st, hst, hinv⟩ := procesarLineas_ok (splitOnChar '\n' contenido) inv_init
  refine ⟨commitSeccion st, ?_, commitSeccion_props hinv⟩
  unfold convertir_a_json
  rw [hst]

lemma no_seccion_con_colon {l : Str} (h : ':' ∈ l) : l ∉ secciones_requeridas := by
  intro hmem
  simp only [secciones_requeridas, List.mem_cons, List.not_mem_nil, or_false] at hmem
  rcases hmem with h1 | h1 | h1 | h1 | h1 | h1 | h1 | h1 | h1 <;>
    (subst h1; revert h; decide)

lemma procesarLinea_sin_seccion {l : Str} (h : strip l ∉ secciones_requeridas) :
    procesarLinea ⟨[], none, none, []⟩ l = .ok ⟨[], none, none, []⟩ := by
  unfold procesarLinea
  by_cases hb : strip l = []
  · rw [if_pos hb]
  · rw [if_neg hb]
    by_cases hpag : containsSub ("Página".data) (strip l) = true
    · rw [if_pos hpag]
    · rw [if_neg hpag]
      by_cases himp : containsSub ("Impreso el".data) (strip l) = true
      · rw [if_pos himp]
      · rw [if_neg himp, if_neg h]

lemma procesarLineas_sin_seccion {ls : List Str}
    (h : ∀ l ∈ ls, strip l ∉ secciones_requeridas) :
    procesarLineas ⟨[], none, none, []⟩ ls = .ok ⟨[], none, none, []⟩ := by
  induction ls with
  | nil => rfl
  | cons l resto ih =>
    unfold procesarLineas
    rw [procesarLinea_sin_seccion (h l (List.mem_cons_self l resto))]
    exact ih (fun x hx => h x (List.mem_cons_of_mem l hx))

lemma convertir_a_json_sin_seccion {contenido : Str}
    (h : ∀ l ∈ splitOnChar '\n' contenido, strip l ∉ secciones_requeridas) :
    convertir_a_json contenido = .ok [] := by
  unfold convertir_a_json
  rw [procesarLineas_sin_seccion h]
  rfl

lemma procesarLinea_seccion (st : ParseState) {name : Str}
    (h1 : strip name = name) (h2 : name ≠ [])
    (h3 : containsSub ("Página".data) name = false)
    (h4 : containsSub ("Impreso el".data) name = false)
    (h5 : name ∈ secciones_requeridas) :
    procesarLinea st name = .ok ⟨commitSeccion st, some name, none, []⟩ := by
  unfold procesarLinea
  rw [h1, if_neg h2, if_neg (by rw [h3]; exact Bool.false_ne_true),
    if_neg (by rw [h4]; exact Bool.false_ne_true), if_pos h5]

lemma procesarLinea_campo (st : ParseState) {seccion name v : Str}
    (hsec : st.seccion_actual = some seccion)
    (hnd : seccion ≠ "DESCRIPCION_QUIRURGICA".data)
    (hname1 : strip name = name) (hname2 : name ≠ []) (hname3 : ':' ∉ name)
    (hv1 : strip v = v) (hv2 : v ≠ [])
    (hpag : containsSub ("Página".data) (name ++ ':' :: ' ' :: v) = false)
    (himp : containsSub ("Impreso el".data) (name ++ ':' :: ' ' :: v) = false) :
    procesarLinea st (name ++ ':' :: ' ' :: v) =
      .ok { st with temp_dict := dictSet st.temp_dict name v } := by
  obtain ⟨c, t, rfl⟩ : ∃ c t, name = c :: t := by
    cases name with
    | nil => exact absurd rfl hname2
    | cons c t => exact ⟨c, t, rfl⟩
  have hc : esEspacio c = false := head_not_espacio_of_stripIzq (stripIzq_eq_self_of_strip hname1)
  have hlinea : strip ((c :: t) ++ ':' :: ' ' :: v) = (c :: t) ++ ':' :: ' ' :: v := by
    have h0 := strip_append_of_head (c := c) (m := t ++ [':', ' ']) hc
      (stripDer_eq_self_of_strip hv1) hv2
    simpa [List.append_assoc] using h0
  have hcolonmem : ':' ∈ (c :: t) ++ ':' :: ' ' :: v := by simp
  obtain ⟨htake, hdrop⟩ := @takeWhile_colon (c :: t) (' ' :: v) hname3
  have hclave : claveDe ((c :: t) ++ ':' :: ' ' :: v) = c :: t := by
    unfold claveDe
    rw [htake]
    exact hname1
  have hvalor : valorDe ((c :: t) ++ ':' :: ' ' :: v) = v := by
    unfold valorDe
    rw [hdrop]
    exact strip_space_cons hv1
  unfold procesarLinea
  rw [hlinea, if_neg (by simp : ¬((c :: t) ++ ':' :: ' ' :: v = [])),
    if_neg (by rw [hpag]; exact Bool.false_ne_true),
    if_neg (by rw [himp]; exact Bool.false_ne_true),
    if_neg (no_seccion_con_colon hcolonmem), hsec]
  dsimp only
  have hany : ((c :: t) ++ ':' :: ' ' :: v).any (fun x => x == ':') = true := by
    rw [List.any_eq_true]
    exact ⟨':', hcolonmem, by simp⟩
  rw [if_pos hany, if_neg hnd, hclave, hvalor]

lemma procesarLinea_absorbe (st : ParseState) {l sub previo : Str}
    (hsec : st.seccion_actual = some ("DESCRIPCION_QUIRURGICA".data))
    (hsub : st.subseccion_actual = some sub)
    (hprevio : dictGet st.temp_dict sub = some previo)
    (hne : ¬ (strip l = []))
    (hpag : containsSub ("Página".data) (strip l) = false)
    (himp : containsSub ("Impreso el".data) (strip l) = false)
    (hcolon : (strip l).any (fun c => c == ':') = true)
    (hhal : containsSub ("Hallazgos_operatorios".data) (claveDe (strip l)) = false)
    (hdet : containsSub ("Detalle_quirúrgico".data) (claveDe (strip l)) = false) :
    procesarLinea st l =
      .ok { st with temp_dict := dictSet st.temp_dict sub (previo ++ '\n' :: strip l) } := by
  have hmem : ':' ∈ strip l := by
    obtain ⟨x, hx, hxc⟩ := List.any_eq_true.mp hcolon
    have hx2 : x = ':' := by simpa using hxc
    rwa [hx2] at hx
  unfold procesarLinea
  rw [if_neg hne, if_neg (by rw [hpag]; exact Bool.false_ne_true),
    if_neg (by rw [himp]; exact Bool.false_ne_true),
    if_neg (no_seccion_con_colon hmem), hsec]
  dsimp only
  rw [if_pos hcolon, if_pos rfl,
    if_neg (by rw [hhal]; exact Bool.false_ne_true),
    if_neg (by rw [hdet]; exact Bool.false_ne_true), hsub]
  dsimp only
  rw [hprevio]

lemma validar_go_ok {r : Record} {f : Campos} {v : Str}
    (hf : dictGet r ("DESCRIPCION_QUIRURGICA".data) = some f)
    (hv : dictGet f ("Hallazgos_operatorios".data) = some v) :
    ∀ (L : List Str) (ws0 : List Warning),
      ∃ ws, validar_datos.go r L ws0 = .ok ws ∧
        (Warning.suspiciouslyShort ∈ ws ↔
          (Warning.suspiciouslyShort ∈ ws0 ∨
            (("DESCRIPCION_QUIRURGICA".data : Str) ∈ L ∧ v.length < 50))) := by
  intro L
  induction L with
  | nil =>
    intro ws0
    exact ⟨ws0, rfl, by simp⟩
  | cons s resto ih =>
    intro ws0
    by_cases hs : s = "DESCRIPCION_QUIRURGICA".data
    · subst hs
      have hstep : validarSeccion r ws0 ("DESCRIPCION_QUIRURGICA".data) =
          .ok (if v.length < 50 then ws0 ++ [Warning.suspiciouslyShort] else ws0) := by
        unfold validarSeccion
        rw [hf]
        dsimp only
        rw [if_pos rfl, hv]
      obtain ⟨ws, hws, hiff⟩ := ih (if v.length < 50 then ws0 ++ [Warning.suspiciouslyShort] else ws0)
      refine ⟨ws, ?_, ?_⟩
      · unfold validar_datos.go
        rw [hstep]
        exact hws
      · rw [hiff]
        by_cases hlen : v.length < 50 <;> simp [hlen]
    · have hstep : ∃ ws1, validarSeccion r ws0 s = .ok ws1 ∧
          (Warning.suspiciouslyShort ∈ ws1 ↔ Warning.suspiciouslyShort ∈ ws0) := by
        unfold validarSeccion
        cases hg : dictGet r s with
        | none =>
          refine ⟨ws0 ++ [Warning.missingSection s], rfl, ?_⟩
          simp
        | some campos =>
          dsimp only
          rw [if_neg hs]
          exact ⟨ws0, rfl, Iff.rfl⟩
      obtain ⟨ws1, hws1, hiff1⟩ := hstep
      obtain ⟨ws, hws, hiff⟩ := ih ws1
      refine ⟨ws, ?_, ?_⟩
      · unfold validar_datos.go
        rw [hws1]
        exact hws
      · have hmemiff : (("DESCRIPCION_QUIRURGICA".data : Str) ∈ s :: resto) ↔
            (("DESCRIPCION_QUIRURGICA".data : Str) ∈ resto) :=
          ⟨fun hm => (List.mem_cons.mp hm).elim (fun he => absurd he.symm hs) id,
           fun hm => List.mem_cons_of_mem s hm⟩
        rw [hiff, hiff1, hmemiff]

lemma guardar_en_txt_foldl (l : List Str) :
    ∀ acc, List.foldl (fun acc dato => acc ++ dato ++ ('\n' :: '\n' :: [])) acc l =
      acc ++ (l.map (fun d => d ++ ('\n' :: '\n' :: []))).flatten := by
  induction l with
  | nil =>
    intro acc
    simp
  | cons a t ih =>
    intro acc
    rw [List.foldl_cons, ih]
    simp [List.append_assoc]

lemma intercalate_cons₂ (sep a b : Str) (t : List Str) :
    List.intercalate sep (a :: b :: t) = a ++ sep ++ List.intercalate sep (b :: t) := by
  simp [List.intercalate, List.intersperse_cons₂, List.append_assoc]

lemma flatten_map_doble (a : Str) (t : List Str) :
    ((a :: t).map (fun d => d ++ ('\n' :: '\n' :: []))).flatten =
      List.intercalate ('\n' :: '\n' :: []) (a :: t) ++ ('\n' :: '\n' :: []) := by
  induction t generalizing a with
  | nil => simp [List.intercalate]
  | cons b t2 ih =>
    rw [List.map_cons, List.flatten_cons, ih b, intercalate_cons₂]
    simp [List.append_assoc]

lemma procesarLineas_cons_ok {st st1 : ParseState} {l : Str} {resto : List Str}
    (h : procesarLinea st l = .ok st1) :
    procesarLineas st (l :: resto) = procesarLineas st1 resto := by
  have e : procesarLineas st (l :: resto) =
      match procesarLinea st l with
      | .ok st2 => procesarLineas st2 resto
      | .error e => .error e := rfl
  rw [e, h]

/-- C1: the claim says validar_datos never raises, in particular not when the
section DESCRIPCION_QUIRURGICA is present but lacks Hallazgos_operatorios.
The code refutes this: on such a record the unguarded dictionary access at
app.py line 329 raises KeyError, modelled here as Except.error. -/
theorem C1_validar_datos_keyerror :
    validar_datos [("DESCRIPCION_QUIRURGICA".data, [("Complicaciones".data, "ninguna".data)])] =
      .error () := by decide

/-- C2: convertir_a_json is total over any text: it always returns a Record
without raising, the empty string yields the empty Record, and any text none
of whose stripped lines is a section header yields the empty Record. -/
theorem C2_parse_total :
    (∀ text : Str, ∃ r, convertir_a_json text = .ok r) ∧
    convertir_a_json [] = .ok [] ∧
    (∀ text : Str, (∀ l ∈ splitOnChar '\n' text, strip l ∉ secciones_requeridas) →
      convertir_a_json text = .ok []) := by
  refine ⟨?_, ?_, ?_⟩
  · intro text
    obtain ⟨r, hr, _⟩ := convertir_a_json_ok text
    exact ⟨r, hr⟩
  · rfl
  · intro text h
    exact convertir_a_json_sin_seccion h

/-- C2 witness: the totality and the headerless case evaluated on a concrete
input with no section header. -/
theorem C2_parse_total_witness :
    (∃ r, convertir_a_json ("sin encabezado".data) = .ok r) ∧
    convertir_a_json ("sin encabezado".data) = .ok [] :=
  ⟨C2_parse_total.1 ("sin encabezado".data),
   C2_parse_total.2.2 ("sin encabezado".data) (by decide)⟩

/-- C4: no section of a parsed Record ever maps to an empty field mapping
(sections are committed only with a non-empty temp_dict), and a section
header immediately followed by another section header leaves no entry for
the first section name. -/
theorem C4_secciones_vacias_descartadas :
    (∀ (text : Str) (r : Record), convertir_a_json text = .ok r → ∀ p ∈ r, p.2 ≠ []) ∧
    convertir_a_json ("DATOS_BASICOS\nIDENTIFICACION\nTipo_documento: CC".data) =
      .ok [("IDENTIFICACION".data, [("Tipo_documento".data, "CC".data)])] := by
  constructor
  · intro text r hr p hp
    obtain ⟨r0, h0, hprops⟩ := convertir_a_json_ok text
    have heq : r0 = r := Except.ok.inj (h0.symm.trans hr)
    subst heq
    exact (hprops p hp).2.1
  · decide

/-- C4 witness: the non-emptiness statement evaluated at the concrete parse
of the second conjunct. -/
theorem C4_secciones_vacias_descartadas_witness :
    ([("Tipo_documento".data, "CC".data)] : Campos) ≠ [] :=
  C4_secciones_vacias_descartadas.1
    ("DATOS_BASICOS\nIDENTIFICACION\nTipo_documento: CC".data)
    [("IDENTIFICACION".data, [("Tipo_documento".data, "CC".data)])]
    (by decide)
    ("IDENTIFICACION".data, [("Tipo_documento".data, "CC".data)])
    (by decide)

/-- C6: parsing the four-line multiline example accumulates the colon-free
continuation lines into Hallazgos_operatorios, newline-joined. -/
theorem C6_acumulacion_multilinea :
    convertir_a_json ("DESCRIPCION_QUIRURGICA\nHallazgos_operatorios: a\nline2\nline3\n".data) =
      .ok [("DESCRIPCION_QUIRURGICA".data,
            [("Hallazgos_operatorios".data, "a\nline2\nline3".data)])] := by
  decide

/-- C7: every top-level key of a parsed Record is one of the nine fixed
schema section names; the parser never invents sections. -/
theorem C7_claves_son_secciones :
    ∀ (text : Str) (r : Record), convertir_a_json text = .ok r →
      ∀ p ∈ r, p.1 ∈ secciones_requeridas := by
  intro text r hr p hp
  obtain ⟨r0, h0, hprops⟩ := convertir_a_json_ok text
  have heq : r0 = r := Except.ok.inj (h0.symm.trans hr)
  subst heq
  exact (hprops p hp).1

/-- C7 witness: the invariant evaluated at a concrete parse. -/
theorem C7_claves_son_secciones_witness :
    ("IDENTIFICACION".data : Str) ∈ secciones_requeridas :=
  C7_claves_son_secciones
    ("IDENTIFICACION\nEdad: 44".data)
    [("IDENTIFICACION".data, [("Edad".data, "44".data)])]
    (by decide)
    ("IDENTIFICACION".data, [("Edad".data, "44".data)])
    (by decide)

/-- C9 counterexample: the claim says the intermediate artifact equals the
documents joined with a double-newline separator with no other bytes added;
for the single document a the artifact carries a trailing double newline the
separator join does not have. -/
theorem C9_contraejemplo :
    guardar_en_txt ["a".data] ≠ List.intercalate ('\n' :: '\n' :: []) ["a".data] := by
  decide

/-- C9 amended: the artifact equals the double-newline join of the documents
in order, plus one trailing double newline whenever at least one document is
present. -/
theorem C9_agregado_con_separador_final :
    ∀ datos : List Str,
      guardar_en_txt datos =
        List.intercalate ('\n' :: '\n' :: []) datos ++
          (if datos = [] then [] else '\n' :: '\n' :: []) := by
  intro datos
  cases datos with
  | nil => rfl
  | cons a t =>
    unfold guardar_en_txt
    rw [guardar_en_txt_foldl]
    rw [List.nil_append, flatten_map_doble]
    rw [if_neg (by simp : ¬(a :: t = []))]

/-- C3: two documents, each a DATOS_BASICOS section with a field Ingreso,
concatenated with a double-newline separator and parsed as one stream,
yield a Record whose DATOS_BASICOS.Ingreso is the value from the second
document:
committing a section under an existing name overwrites the earlier entry. -/
theorem C3_merge_last_writer_wins (v1 v2 : Str)
    (hv1a : strip v1 = v1) (hv1b : v1 ≠ []) (hv1c : '\n' ∉ v1)
    (hv2a : strip v2 = v2) (hv2b : v2 ≠ []) (hv2c : '\n' ∉ v2)
    (hpag1 : containsSub ("Página".data) ("Ingreso: ".data ++ v1) = false)
    (himp1 : containsSub ("Impreso el".data) ("Ingreso: ".data ++ v1) = false)
    (hpag2 : containsSub ("Página".data) ("Ingreso: ".data ++ v2) = false)
    (himp2 : containsSub ("Impreso el".data) ("Ingreso: ".data ++ v2) = false) :
    convertir_a_json
        (("DATOS_BASICOS\nIngreso: ".data ++ v1) ++
          '\n' :: '\n' :: ("DATOS_BASICOS\nIngreso: ".data ++ v2)) =
      .ok [("DATOS_BASICOS".data, [("Ingreso".data, v2)])] := by
  have hnm1 : '\n' ∉ ("Ingreso".data ++ ':' :: ' ' :: v1) := by
    intro hmem
    rcases List.mem_append.mp hmem with hl | hr
    · revert hl; decide
    · simp only [List.mem_cons] at hr
      rcases hr with h | h | h
      · exact absurd h (by decide)
      · exact absurd h (by decide)
      · exact hv1c h
  have hnm2 : '\n' ∉ ("Ingreso".data ++ ':' :: ' ' :: v2) := by
    intro hmem
    rcases List.mem_append.mp hmem with hl | hr
    · revert hl; decide
    · simp only [List.mem_cons] at hr
      rcases hr with h | h | h
      · exact absurd h (by decide)
      · exact absurd h (by decide)
      · exact hv2c h
  have hsplit : splitOnChar '\n'
      (("DATOS_BASICOS\nIngreso: ".data ++ v1) ++
        '\n' :: '\n' :: ("DATOS_BASICOS\nIngreso: ".data ++ v2)) =
      ["DATOS_BASICOS".data, "Ingreso".data ++ ':' :: ' ' :: v1, [],
       "DATOS_BASICOS".data, "Ingreso".data ++ ':' :: ' ' :: v2] := by
    have hlit : ("DATOS_BASICOS\nIngreso: ".data : Str) =
        "DATOS_BASICOS".data ++ '\n' :: ("Ingreso".data ++ [':', ' ']) := by decide
    have e1 : (("DATOS_BASICOS\nIngreso: ".data ++ v1) ++
          '\n' :: '\n' :: ("DATOS_BASICOS\nIngreso: ".data ++ v2) : Str) =
        "DATOS_BASICOS".data ++ '\n' ::
          (("Ingreso".data ++ ':' :: ' ' :: v1) ++ '\n' ::
            ('\n' :: ("DATOS_BASICOS".data ++ '\n' :: ("Ingreso".data ++ ':' :: ' ' :: v2)))) := by
      rw [hlit]
      simp [List.append_assoc]
    rw [e1]
    rw [splitOnChar_append_cons (by decide)]
    rw [splitOnChar_append_cons hnm1]
    rw [splitOnChar_cons_eq]
    rw [if_pos (by decide : (('\n' : Char) == '\n') = true)]
    rw [splitOnChar_append_cons (by decide)]
    rw [splitOnChar_not_mem hnm2]
  have h1 : procesarLinea ⟨[], none, none, []⟩ ("DATOS_BASICOS".data) =
      .ok ⟨[], some ("DATOS_BASICOS".data), none, []⟩ := by decide
  have h2 : procesarLinea ⟨[], some ("DATOS_BASICOS".data), none, []⟩
      ("Ingreso".data ++ ':' :: ' ' :: v1) =
      .ok ⟨[], some ("DATOS_BASICOS".data), none, [("Ingreso".data, v1)]⟩ :=
    procesarLinea_campo _ rfl (by decide) (by decide) (by decide) (by decide)
      hv1a hv1b hpag1 himp1
  have h3 : procesarLinea ⟨[], some ("DATOS_BASICOS".data), none, [("Ingreso".data, v1)]⟩
      ([] : Str) =
      .ok ⟨[], some ("DATOS_BASICOS".data), none, [("Ingreso".data, v1)]⟩ := rfl
  have h4 : procesarLinea ⟨[], some ("DATOS_BASICOS".data), none, [("Ingreso".data, v1)]⟩
      ("DATOS_BASICOS".data) =
      .ok ⟨[("DATOS_BASICOS".data, [("Ingreso".data, v1)])],
           some ("DATOS_BASICOS".data), none, []⟩ :=
    procesarLinea_seccion _ (by decide) (by decide) (by decide) (by decide) (by decide)
  have h5 : procesarLinea ⟨[("DATOS_BASICOS".data, [("Ingreso".data, v1)])],
      some ("DATOS_BASICOS".data), none, []⟩
      ("Ingreso".data ++ ':' :: ' ' :: v2) =
      .ok ⟨[("DATOS_BASICOS".data, [("Ingreso".data, v1)])],
           some ("DATOS_BASICOS".data), none, [("Ingreso".data, v2)]⟩ :=
    procesarLinea_campo _ rfl (by decide) (by decide) (by decide) (by decide)
      hv2a hv2b hpag2 himp2
  unfold convertir_a_json
  rw [hsplit, procesarLineas_cons_ok h1, procesarLineas_cons_ok h2,
    procesarLineas_cons_ok h3, procesarLineas_cons_ok h4, procesarLineas_cons_ok h5]
  rfl

/-- C3 witness: the merge theorem evaluated at the concrete values 111 and
222 for the repeated Ingreso field. -/
theorem C3_merge_last_writer_wins_witness :
    convertir_a_json
        (("DATOS_BASICOS\nIngreso: ".data ++ "111".data) ++
          '\n' :: '\n' :: ("DATOS_BASICOS\nIngreso: ".data ++ "222".data)) =
      .ok [("DATOS_BASICOS".data, [("Ingreso".data, "222".data)])] :=
  C3_merge_last_writer_wins "111".data "222".data
    (by decide) (by decide) (by decide) (by decide) (by decide) (by decide)
    (by decide) (by decide) (by decide) (by decide)

/-- C5: while a multiline field is open in DESCRIPCION_QUIRURGICA, a line
containing a colon whose key contains neither multiline marker does not
create a new field: the whole stripped line is appended to the open field,
newline-separated, and the set of field names is unchanged. -/
theorem C5_continuacion_con_clave_absorbida (st : ParseState) (l sub previo : Str)
    (hsec : st.seccion_actual = some ("DESCRIPCION_QUIRURGICA".data))
    (hsub : st.subseccion_actual = some sub)
    (hprevio : dictGet st.temp_dict sub = some previo)
    (hne : ¬ (strip l = []))
    (hpag : containsSub ("Página".data) (strip l) = false)
    (himp : containsSub ("Impreso el".data) (strip l) = false)
    (hcolon : (strip l).any (fun c => c == ':') = true)
    (hhal : containsSub ("Hallazgos_operatorios".data) (claveDe (strip l)) = false)
    (hdet : containsSub ("Detalle_quirúrgico".data) (claveDe (strip l)) = false) :
    procesarLinea st l =
      .ok { st with temp_dict := dictSet st.temp_dict sub (previo ++ '\n' :: strip l) } ∧
    (dictSet st.temp_dict sub (previo ++ '\n' :: strip l)).map Prod.fst =
      st.temp_dict.map Prod.fst :=
  ⟨procesarLinea_absorbe st hsec hsub hprevio hne hpag himp hcolon hhal hdet,
   keys_dictSet_of_any _ (any_of_dictGet_eq_some hprevio)⟩

/-- C5 witness: the absorption theorem evaluated at a concrete open
Hallazgos_operatorios field and the key-value-shaped line Sangrado: 20 cc. -/
theorem C5_continuacion_con_clave_absorbida_witness :
    procesarLinea
        ⟨[], some ("DESCRIPCION_QUIRURGICA".data), some ("Hallazgos_operatorios".data),
         [("Hallazgos_operatorios".data, "x".data)]⟩
        ("Sangrado: 20 cc".data) =
      .ok ⟨[], some ("DESCRIPCION_QUIRURGICA".data), some ("Hallazgos_operatorios".data),
           [("Hallazgos_operatorios".data, "x\nSangrado: 20 cc".data)]⟩ ∧
    ([("Hallazgos_operatorios".data, "x\nSangrado: 20 cc".data)] : Campos).map Prod.fst =
      ([("Hallazgos_operatorios".data, "x".data)] : Campos).map Prod.fst :=
  C5_continuacion_con_clave_absorbida
    ⟨[], some ("DESCRIPCION_QUIRURGICA".data), some ("Hallazgos_operatorios".data),
     [("Hallazgos_operatorios".data, "x".data)]⟩
    ("Sangrado: 20 cc".data) ("Hallazgos_operatorios".data) ("x".data)
    rfl rfl (by decide) (by decide) (by decide) (by decide) (by decide) (by decide)
    (by decide)

/-- C8: for any Record in which DESCRIPCION_QUIRURGICA is present and has
Hallazgos_operatorios, validar_datos returns its findings without raising,
and the suspiciously-short finding is present exactly when the value has
fewer than 50 characters, hence not at exactly 50. -/
theorem C8_umbral_suspiciously_short (r : Record) (f : Campos) (v : Str)
    (hf : dictGet r ("DESCRIPCION_QUIRURGICA".data) = some f)
    (hv : dictGet f ("Hallazgos_operatorios".data) = some v) :
    ∃ ws, validar_datos r = .ok ws ∧
      (Warning.suspiciouslyShort ∈ ws ↔ v.length < 50) := by
  obtain ⟨ws, hws, hiff⟩ := validar_go_ok hf hv secciones_requeridas []
  refine ⟨ws, hws, ?_⟩
  rw [hiff]
  have hdescmem : ("DESCRIPCION_QUIRURGICA".data : Str) ∈ secciones_requeridas := by decide
  simp [hdescmem]

/-- C8 witness: the threshold theorem evaluated at a concrete record with a
short Hallazgos_operatorios value. -/
theorem C8_umbral_suspiciously_short_witness :
    ∃ ws, validar_datos
        [("DESCRIPCION_QUIRURGICA".data, [("Hallazgos_operatorios".data, "corto".data)])] =
      .ok ws ∧
      (Warning.suspiciouslyShort ∈ ws ↔ ("corto".data : Str).length < 50) :=
  C8_umbral_suspiciously_short
    [("DESCRIPCION_QUIRURGICA".data, [("Hallazgos_operatorios".data, "corto".data)])]
    [("Hallazgos_operatorios".data, "corto".data)] ("corto".data)
    (by decide) (by decide)

/-- C10: each parsed section keeps exactly one entry per distinct field name
(duplicate-free keys), and when two field lines in one section repeat a key
the later value replaces the earlier one. -/
theorem C10_clave_repetida_ultima_gana :
    (∀ (text : Str) (r : Record), convertir_a_json text = .ok r →
      ∀ p ∈ r, (p.2.map Prod.fst).Nodup) ∧
    (∀ v1 v2 : Str,
      strip v1 = v1 → v1 ≠ [] → '\n' ∉ v1 →
      strip v2 = v2 → v2 ≠ [] → '\n' ∉ v2 →
      containsSub ("Página".data) ("Edad: ".data ++ v1) = false →
      containsSub ("Impreso el".data) ("Edad: ".data ++ v1) = false →
      containsSub ("Página".data) ("Edad: ".data ++ v2) = false →
      containsSub ("Impreso el".data) ("Edad: ".data ++ v2) = false →
      convertir_a_json
          ("IDENTIFICACION\nEdad: ".data ++ v1 ++ '\n' :: ("Edad: ".data ++ v2)) =
        .ok [("IDENTIFICACION".data, [("Edad".data, v2)])]) := by
  constructor
  · intro text r hr p hp
    obtain ⟨r0, h0, hprops⟩ := convertir_a_json_ok text
    have heq : r0 = r := Except.ok.inj (h0.symm.trans hr)
    subst heq
    exact (hprops p hp).2.2
  · intro v1 v2 hv1a hv1b hv1c hv2a hv2b hv2c hpag1 himp1 hpag2 himp2
    have hnm1 : '\n' ∉ ("Edad".data ++ ':' :: ' ' :: v1) := by
      intro hmem
      rcases List.mem_append.mp hmem with hl | hr
      · revert hl; decide
      · simp only [List.mem_cons] at hr
        rcases hr with h | h | h
        · exact absurd h (by decide)
        · exact absurd h (by decide)
        · exact hv1c h
    have hsplit : splitOnChar '\n'
        ("IDENTIFICACION\nEdad: ".data ++ v1 ++ '\n' :: ("Edad: ".data ++ v2)) =
        ["IDENTIFICACION".data, "Edad".data ++ ':' :: ' ' :: v1,
         "Edad".data ++ ':' :: ' ' :: v2] := by
      have hlit : ("IDENTIFICACION\nEdad: ".data : Str) =
          "IDENTIFICACION".data ++ '\n' :: ("Edad".data ++ [':', ' ']) := by decide
      have hlit2 : ("Edad: ".data : Str) = "Edad".data ++ [':', ' '] := by decide
      have e1 : ("IDENTIFICACION\nEdad: ".data ++ v1 ++ '\n' :: ("Edad: ".data ++ v2) : Str) =
          "IDENTIFICACION".data ++ '\n' ::
            (("Edad".data ++ ':' :: ' ' :: v1) ++ '\n' ::
              ("Edad".data ++ ':' :: ' ' :: v2)) := by
        rw [hlit, hlit2]
        simp [List.append_assoc]
      rw [e1]
      rw [splitOnChar_append_cons (by decide)]
      rw [splitOnChar_append_cons hnm1]
      have hnm2 : '\n' ∉ ("Edad".data ++ ':' :: ' ' :: v2) := by
        intro hmem
        rcases List.mem_append.mp hmem with hl | hr
        · revert hl; decide
        · simp only [List.mem_cons] at hr
          rcases hr with h | h | h
          · exact absurd h (by decide)
          · exact absurd h (by decide)
          · exact hv2c h
      rw [splitOnChar_not_mem hnm2]
    have h1 : procesarLinea ⟨[], none, none, []⟩ ("IDENTIFICACION".data) =
        .ok ⟨[], some ("IDENTIFICACION".data), none, []⟩ := by decide
    have h2 : procesarLinea ⟨[], some ("IDENTIFICACION".data), none, []⟩
        ("Edad".data ++ ':' :: ' ' :: v1) =
        .ok ⟨[], some ("IDENTIFICACION".data), none, [("Edad".data, v1)]⟩ :=
      procesarLinea_campo _ rfl (by decide) (by decide) (by decide) (by decide)
        hv1a hv1b hpag1 himp1
    have h3 : procesarLinea ⟨[], some ("IDENTIFICACION".data), none, [("Edad".data, v1)]⟩
        ("Edad".data ++ ':' :: ' ' :: v2) =
        .ok ⟨[], some ("IDENTIFICACION".data), none, [("Edad".data, v2)]⟩ :=
      procesarLinea_campo _ rfl (by decide) (by decide) (by decide) (by decide)
        hv2a hv2b hpag2 himp2
    unfold convertir_a_json
    rw [hsplit, procesarLineas_cons_ok h1, procesarLineas_cons_ok h2,
      procesarLineas_cons_ok h3]
    rfl

/-- C10 witness: duplicate-free keys at a concrete parse, and the repeated
key Edad keeping the second value. -/
theorem C10_clave_repetida_ultima_gana_witness :
    (((("IDENTIFICACION".data, [("Edad".data, "7".data)]) : Str × Campos).2.map Prod.fst).Nodup) ∧
    convertir_a_json
        ("IDENTIFICACION\nEdad: ".data ++ "6".data ++ '\n' :: ("Edad: ".data ++ "7".data)) =
      .ok [("IDENTIFICACION".data, [("Edad".data, "7".data)])] :=
  ⟨C10_clave_repetida_ultima_gana.1
      ("IDENTIFICACION\nEdad: 7".data)
      [("IDENTIFICACION".data, [("Edad".data, "7".data)])]
      (by decide)
      ("IDENTIFICACION".data, [("Edad".data, "7".data)])
      (by decide),
   C10_clave_repetida_ultima_gana.2 "6".data "7".data
      (by decide) (by decide) (by decide) (by decide) (by decide) (by decide)
      (by decide) (by decide) (by decide) (by decide)⟩

end PdfToJson
